import Mathlib

/-!
Shallow embedding of the skynet turn engine (`src/skynet/main.py`).

Conventions used throughout:
* Python `float` values are modelled as `ℚ`.  All arithmetic the claims
  exercise (`+`, `-`, `*`, `/`, comparisons) is exact on the inputs involved.
* The two transcendental float operations (`x ** 0.5` and `math.log`) are
  modelled by an uninterpreted parameter record `FloatOps`; no claim depends
  on their values.
* Python objects with identity (`Network`, `TradeRequest`) are keyed by their
  unique key (name / id) and mutation is modelled as keyed update of the game
  state.  Comparisons between values of different Python types (e.g.
  `sender.name == trade.requester`, a `str` against a `Network`) are modelled
  by `pyEq` on a small universe of tagged Python values, where values of
  different types are never equal - exactly as in CPython.
* Exceptions are modelled with `Except`; the error carries the state at the
  moment of the raise, since Python mutations performed before a raise
  persist.
-/

namespace Skynet

/-- `COLORS` from main.py. -/
def COLORS : List String := ["yellow", "orange", "red", "purple", "blue", "green"]

/-- `RESOURCES` from main.py. -/
def RESOURCES : List String :=
  ["yellow", "orange", "red", "purple", "blue", "green", "money", "insight"]

/-- `IMMOVABLES` from main.py. -/
def IMMOVABLES : List String := ["commerce", "industry", "research"]

/-- `RESEARCH` from main.py. -/
def RESEARCH : List String := ["intelligence", "power", "production"]

/-- `FIELD_STATS = COLORS + IMMOVABLES + ['military']` from main.py. -/
def FIELD_STATS : List String := COLORS ++ IMMOVABLES ++ ["military"]

/-- `COLOR_MATCHES[resource]` from main.py: the two colors funding each
immovable stat. -/
def COLOR_MATCHES (resource : String) : String × String :=
  if resource = "commerce" then ("yellow", "orange")
  else if resource = "industry" then ("red", "purple")
  else ("blue", "green")

/-- `Coordinates` named tuple: an integer pair. -/
structure Coordinates where
  x : Int
  y : Int
deriving DecidableEq, Repr

/-- A tagged universe of the Python values that get compared with `==` across
types in main.py.  `Network` objects are denoted by their unique name. -/
inductive PyVal where
  | vnone
  | vstr (s : String)
  | vnetwork (name : String)
deriving DecidableEq

/-- CPython `==` on `PyVal`: `None == None` is `True`, two `str`s compare by
content, two `Network`s compare by identity (names are unique keys), and any
cross-type comparison is `False` (neither `str` nor `Network` defines a
cross-type `__eq__`). -/
def pyEq : PyVal → PyVal → Bool
  | .vnone, .vnone => true
  | .vstr a, .vstr b => a == b
  | .vnetwork a, .vnetwork b => a == b
  | _, _ => false

/-- An optional `Network` attribute (`field.network`, `trade.tradepartner`)
as a Python value. -/
def netVal : Option String → PyVal
  | none => .vnone
  | some n => .vnetwork n

/-! ## Board geometry (`Board.distance_vector`, `Board.distance`,
`Board.add_coordinates`) -/

/-- One axis of `Board.distance_vector`: wrap the delta once when it exceeds
half the extent.  Python compares the integer delta against the float
`size/2`; that comparison is exact and equals `2 * d > size`. -/
def wrapDelta (extent : Nat) (d : Int) : Int :=
  if 2 * d > (extent : Int) then d - extent
  else if 2 * d < -(extent : Int) then d + extent
  else d

/-- `Board.distance_vector` on a `W x H` board. -/
def distance_vector (W H : Nat) (a b : Coordinates) : Coordinates :=
  ⟨wrapDelta W (b.x - a.x), wrapDelta H (b.y - a.y)⟩

/-- The squared value of `Board.distance`: `distance(a,b) ** 2`.
`Board.distance` itself is `(vector.x ** 2 + vector.y ** 2) ** 0.5`, i.e. the
(monotone) square root of this quantity. -/
def distanceSq (W H : Nat) (a b : Coordinates) : Int :=
  (distance_vector W H a b).x ^ 2 + (distance_vector W H a b).y ^ 2

/-- `Board.add_coordinates` coordinate arithmetic: componentwise addition with
a single wraparound correction per axis (exactly one `+= size` or `-= size`,
never a full modulus). -/
def add_coordinates (W H : Nat) (a b : Coordinates) : Coordinates :=
  let xa := a.x + b.x
  let xa := if xa < 0 then xa + W else if xa ≥ (W : Int) then xa - W else xa
  let ya := a.y + b.y
  let ya := if ya < 0 then ya + H else if ya ≥ (H : Int) then ya - H else ya
  ⟨xa, ya⟩

/-! ## Field -/

/-- `Field` mutable per-cell state.  The board back-reference and the
immutable coordinates live outside this record; `moved_military` is the
transient `defaultdict(float)` keyed by contending `Network` (or `None` for
an unowned resident), kept in insertion order as Python dicts are. -/
structure Field where
  yellow : ℚ := 0
  orange : ℚ := 0
  red : ℚ := 0
  purple : ℚ := 0
  blue : ℚ := 0
  green : ℚ := 0
  commerce_brut : ℚ := 0
  research_brut : ℚ := 0
  industry_brut : ℚ := 0
  military : ℚ := 0
  network : Option String := none
  moved_military : List (Option String × ℚ) := []
deriving DecidableEq

/-- A freshly constructed `Field` (all zero, unowned). -/
def emptyField : Field := {}

/-- `defaultdict(float)` update `d[k] += v`: add in place when the key is
present, otherwise append `(k, 0 + v)` at the end (insertion order). -/
def mmAdd (l : List (Option String × ℚ)) (k : Option String) (v : ℚ) :
    List (Option String × ℚ) :=
  if l.any (fun p => p.1 == k) then
    l.map (fun p => if p.1 == k then (p.1, p.2 + v) else p)
  else l ++ [(k, v)]

/-- Dynamic color access `getattr(field, color)` for the six colors. -/
def fieldColor (f : Field) : String → ℚ
  | "yellow" => f.yellow
  | "orange" => f.orange
  | "red" => f.red
  | "purple" => f.purple
  | "blue" => f.blue
  | "green" => f.green
  | _ => 0

/-- Dynamic update `setattr(field, color, v)` for the six colors. -/
def fieldSetColor (f : Field) : String → ℚ → Field
  | "yellow", v => {f with yellow := v}
  | "orange", v => {f with orange := v}
  | "red", v => {f with red := v}
  | "purple", v => {f with purple := v}
  | "blue", v => {f with blue := v}
  | "green", v => {f with green := v}
  | _, _ => f

/-- Dynamic update `field.add_resource(resource + '_brut', increase)` as used
by `Field.build`. -/
def fieldAddBrut (f : Field) (resource : String) (v : ℚ) : Field :=
  if resource = "commerce" then {f with commerce_brut := f.commerce_brut + v}
  else if resource = "industry" then {f with industry_brut := f.industry_brut + v}
  else if resource = "research" then {f with research_brut := f.research_brut + v}
  else f

/-! ## Network -/

/-- `Network` per-agent state.  `attrs` models the dynamically accessed
numeric attributes (the eight resources and the three `*_brut` research
accumulators) with `getattr(self, name, 0)` semantics; `fields` is the
derived list of owned field coordinates recomputed by
`Game.calculate_network_fields`. -/
structure Network where
  name : String
  attrs : String → ℚ
  fields : List Coordinates := []

/-- `Network.__init__`: everything zero except `money = STARTING_MONEY`. -/
def mkNetwork (name : String) : Network :=
  { name := name, attrs := fun s => if s == "money" then 100 else 0 }

/-- `setattr(network, key, v)` for a dynamic numeric attribute. -/
def Network.setAttr (n : Network) (key : String) (v : ℚ) : Network :=
  {n with attrs := fun s => if s == key then v else n.attrs s}

/-- `Network.add_resource`: `setattr(self, r, getattr(self, r, 0) + amount)`. -/
def Network.add_resource (n : Network) (r : String) (amount : ℚ) : Network :=
  n.setAttr r (n.attrs r + amount)

/-- Insert into an ascending list, as a step of Python `sorted`. -/
def insertAsc (x : ℚ) : List ℚ → List ℚ
  | [] => [x]
  | y :: ys => if x ≤ y then x :: y :: ys else y :: insertAsc x ys

/-- Python `sorted` on a list of rationals (ascending insertion sort). -/
def sortAsc : List ℚ → List ℚ
  | [] => []
  | x :: xs => insertAsc x (sortAsc xs)

/-- `Network.request_resource`: `sorted([0, amount, getattr(self, r, 0)])[1]`,
the median of the three values. -/
def Network.request_resource (n : Network) (resource : String) (amount : ℚ) : ℚ :=
  (sortAsc [0, amount, n.attrs resource]).getD 1 0

/-- `Network.research`: clamp the insight spend, and when the subject is a
valid research track and the clamped spend is nonzero, credit the track's
raw accumulator and debit the insight pool. -/
def Network.researchSpend (n : Network) (subject : String) (insight : ℚ) : Network :=
  let insight := n.request_resource "insight" insight
  if subject ∈ RESEARCH ∧ insight ≠ 0 then
    let n := n.add_resource (subject ++ "_brut") insight
    n.setAttr "insight" (n.attrs "insight" - insight)
  else n

/-! ## `sum_to_n` and the expanding-ring search (`Field.get_nearest_field`) -/

/-- Python `range(a, b)` over integers. -/
def intRange (a b : Int) : List Int :=
  (List.range (b - a).toNat).map (fun k => a + k)

/-- `sum_to_n(n, size, limit)`: all lists of `size` positive integers in
decreasing order that add up to `n` (generator order).  `//` is Python floor
division, hence `Int.fdiv`.  The `size = 0` case never occurs in the source's
calls. -/
def sum_to_n : Int → Nat → Option Int → List (List Int)
  | n, 0, _ => [[n]]
  | n, 1, _ => [[n]]
  | n, s + 2, limit =>
    let size : Int := (s : Int) + 2
    let limit := limit.getD n
    let start := Int.fdiv (n + size - 1) size
    let stop := min limit (n - size + 1) + 1
    (intRange start stop).flatMap
      (fun i => (sum_to_n (n - i) (s + 1) (some i)).map (fun tail => i :: tail))

/-- The `tuples` list of `Field.get_nearest_field`:
`list(sum_to_n(count, 2))` with `[count, 0]` appended. -/
def ringTuples (count : Nat) : List (List Int) :=
  sum_to_n (count : Int) 2 none ++ [[(count : Int), 0]]

/-- The ring offsets of `Field.get_nearest_field` at radius `count`: the
tuples as coordinates, extended by their axis swaps, then by the three sign
reflections of every entry, finally taken as a set (`coordinate_set`).  The
iteration order of the Python hash set is implementation defined; here the
set is a deduplicated list, which fixes one order of each ring. -/
def ringCoords (count : Nat) : List Coordinates :=
  let coordinates := (ringTuples count).map (fun l => Coordinates.mk (l.getD 0 0) (l.getD 1 0))
  let coordinates := coordinates ++ coordinates.map (fun c => ⟨c.y, c.x⟩)
  let coordinates := coordinates ++
    coordinates.flatMap (fun c => [⟨-c.x, c.y⟩, ⟨-c.x, -c.y⟩, ⟨c.x, -c.y⟩])
  coordinates.dedup

/-- The board's field dictionary: `size` plus the coordinate-keyed map
(`field_dict.get`, so lookups of absent coordinates give `none`). -/
structure GameBoard where
  width : Nat
  height : Nat
  fields : Coordinates → Option Field

/-- `self + coordinate` inside `get_nearest_field`:
`field_dict.get(add_coordinates(...))`.  Offsets larger than one extent can
escape the single wraparound correction, in which case the lookup yields
`none` (Python would pass `None` to the predicate). -/
def boardAddGet (B : GameBoard) (c d : Coordinates) : Option Field :=
  B.fields (add_coordinates B.width B.height c d)

/-- One iteration of the `while` loop of `Field.get_nearest_field`: test the
predicate on every field of the ring at radius `count`, in ring order. -/
def ringSearch (B : GameBoard) (c : Coordinates) (f : Option Field → Bool)
    (count : Nat) : Option (Option Field) :=
  (ringCoords count).findSome? (fun d =>
    let tf := boardAddGet B c d
    if f tf then some tf else none)

/-- The `while True` loop of `Field.get_nearest_field`, with an explicit fuel
argument for structural recursion.  The loop body tests ring `count`, then
increments and exits with no match once `count` exceeds `max(board.size)`;
fuel `max(board.size) + 1` therefore always outlasts the loop, and the
`fuel = 0` branch is unreachable. -/
def nearestLoop (B : GameBoard) (c : Coordinates) (f : Option Field → Bool) :
    Nat → Nat → Option (Option Field)
  | _, 0 => none
  | count, fuel + 1 =>
    match ringSearch B c f count with
    | some r => some r
    | none =>
      if count + 1 > max B.width B.height then none
      else nearestLoop B c f (count + 1) fuel

/-- `Field.get_nearest_field(func)`: expanding-ring search from radius 1. -/
def get_nearest_field (B : GameBoard) (c : Coordinates) (f : Option Field → Bool) :
    Option (Option Field) :=
  nearestLoop B c f 1 (max B.width B.height + 1)

/-! ## Float transcendentals, field production, build -/

/-- The two transcendental float operations of main.py, kept uninterpreted:
`sqrt x` models `x ** 0.5` and `log x` models `math.log(x)`.  No claim
depends on their values. -/
structure FloatOps where
  sqrt : ℚ → ℚ
  log : ℚ → ℚ

/-- `Field._immovable_func`: the effective value of a brut accumulator,
`value ** 0.5`. -/
def immovableFunc (F : FloatOps) (value : ℚ) : ℚ := F.sqrt value

/-- `Network._research_func`: `1 + math.log(1 + value / 1000) / math.log(2)`. -/
def researchFunc (F : FloatOps) (value : ℚ) : ℚ :=
  1 + F.log (1 + value / 1000) / F.log 2

/-- The effective research stats `network.production` / `.intelligence` /
`.power` read through the dynamic brut attributes. -/
def networkEff (F : FloatOps) (n : Network) (subject : String) : ℚ :=
  researchFunc F (n.attrs (subject ++ "_brut"))

/-- `getattr(field, stat)` for a stat in `FIELD_STATS`: a raw color, an
effective immovable property, or the military strength. -/
def fieldStat (F : FloatOps) (f : Field) (stat : String) : ℚ :=
  if stat ∈ COLORS then fieldColor f stat
  else if stat = "commerce" then immovableFunc F f.commerce_brut
  else if stat = "industry" then immovableFunc F f.industry_brut
  else if stat = "research" then immovableFunc F f.research_brut
  else if stat = "military" then f.military
  else 0

/-- `Field.build` on a field together with its owning network: gate on the
resource being immovable and the field being owned, clamp money and the two
matched colors, add `((1 + c1) * (1 + c2)) ** 0.5 * money` to the brut
accumulator, and debit the network. -/
def fieldBuild (F : FloatOps) (f : Field) (owner : Network)
    (resource : String) (money color1 color2 : ℚ) : Field × Network :=
  if resource ∈ IMMOVABLES ∧ f.network ≠ none then
    let colorname1 := (COLOR_MATCHES resource).1
    let colorname2 := (COLOR_MATCHES resource).2
    let money := owner.request_resource "money" money
    let color1 := owner.request_resource colorname1 color1
    let color2 := owner.request_resource colorname2 color2
    let increase := F.sqrt ((1 + color1) * (1 + color2)) * money
    let f := fieldAddBrut f resource increase
    let owner := owner.add_resource colorname1 (-color1)
    let owner := owner.add_resource colorname2 (-color2)
    let owner := owner.setAttr "money" (owner.attrs "money" - money)
    (f, owner)
  else (f, owner)

/-! ## Trade ledger and game state -/

/-- `TradeRequest`: requester and optional trade partner are `Network`
references, denoted by their unique names.  `__init__` normalizes a requested
or offered good that is not one of the eight resource kinds to `None`. -/
structure TradeRequest where
  id_ : Nat
  requester : String
  tradepartner : Option String
  requested_amount : ℚ
  requested_good : Option String
  offered_amount : Option ℚ
  offered_good : Option String
  confirmed_tradepartner : Bool := false
  confirmed_requester : Bool := false
  requester_executed : Bool := false
  tradepartner_executed : Bool := false
  cancelled : Bool := false
deriving DecidableEq

/-- The seven order variants of main.py (named tuples), with trade ids as
naturals matching the monotone counter. -/
inductive Order where
  | build (field : Coordinates) (resource : String) (money color1 color2 : ℚ)
  | research (subject : String) (insight : ℚ)
  | move (military : ℚ) (field target : Coordinates)
  | requestTrade (tradepartner : Option String) (request_amount : ℚ)
      (request_good : String) (offered_amount : Option ℚ) (offered_good : Option String)
  | acceptTrade (trade_id : Nat) (offered_amount : ℚ) (offered_good : String)
  | cancelTrade (trade_id : Nat)
  | send (receiver : String) (amount : ℚ) (good : String) (trade_id : Nat)

/-- The engine state of `Game` that the turn pipeline touches.  `data` is the
per-stat, per-network-index history table `self.data`. -/
structure GameState where
  networks : List Network
  board : GameBoard
  turn : Nat := 0
  orders : List (String × List Order) := []
  trade_request_dict : List TradeRequest := []
  trade_counter : Nat := 0
  data : String → Nat → List ℚ := fun _ _ => [0]

/-- `self.network_dict.get(name)`: networks are keyed by their unique name. -/
def networkByName (st : GameState) (name : String) : Option Network :=
  st.networks.find? (fun nw => nw.name == name)

/-- `self.trade_request_dict.get(id)`: trades are keyed by their unique id. -/
def tradeById (st : GameState) (id_ : Nat) : Option TradeRequest :=
  st.trade_request_dict.find? (fun t => t.id_ == id_)

/-- In-place mutation of the `TradeRequest` object with the given id. -/
def updateTrade (st : GameState) (id_ : Nat) (g : TradeRequest → TradeRequest) :
    GameState :=
  {st with trade_request_dict :=
    st.trade_request_dict.map (fun t => if t.id_ == id_ then g t else t)}

/-- In-place mutation (`setattr`) of the `Network` object with the given
name; names are unique keys, so keyed update coincides with object identity. -/
def setNetworkAttr (st : GameState) (name good : String) (v : ℚ) : GameState :=
  {st with networks :=
    st.networks.map (fun nw => if nw.name == name then nw.setAttr good v else nw)}

/-- In-place replacement of the `Network` object with the given name. -/
def updateNetwork (st : GameState) (name : String) (g : Network → Network) :
    GameState :=
  {st with networks := st.networks.map (fun nw => if nw.name == name then g nw else nw)}

/-- In-place mutation of the `Field` object at the given coordinate. -/
def updateField (st : GameState) (c : Coordinates) (g : Field → Field) : GameState :=
  {st with board := {st.board with fields := fun c2 =>
    if c2 = c then (st.board.fields c2).map g else st.board.fields c2}}

/-- The Python exceptions the embedded code can raise: `AttributeError`
(payload: the missing attribute name) and `KeyError`. -/
inductive PyErr where
  | attributeError (attr : String)
  | keyError
deriving DecidableEq

/-- What aborts a turn: an agent failing to produce orders (reported with the
offending network's name, per `Game.get_orders`) or an exception escaping a
resolution phase. -/
inductive TurnErr where
  | agentFailure (network : String) (msg : String)
  | pyError (e : PyErr)
deriving DecidableEq

/-! ## Trade order resolution -/

/-- `Game.resolve_request_trade`: allocate the next trade id, resolve the
named partner through `network_dict.get` (an empty or missing name is
falsy), and record the normalized `TradeRequest` in the ledger. -/
def resolve_request_trade (tradepartner : Option String) (request_amount : ℚ)
    (request_good : String) (offered_amount : Option ℚ) (offered_good : Option String)
    (sender : String) (st : GameState) : GameState :=
  let trade_id := st.trade_counter
  let st := {st with trade_counter := st.trade_counter + 1}
  let partner : Option String :=
    match tradepartner with
    | some p => if p = "" then none else (networkByName st p).map (fun nw => nw.name)
    | none => none
  let trade : TradeRequest :=
    { id_ := trade_id
      requester := sender
      tradepartner := partner
      requested_amount := request_amount
      requested_good := if request_good ∈ RESOURCES then some request_good else none
      offered_amount := offered_amount
      offered_good :=
        match offered_good with
        | some g => if g ∈ RESOURCES then some g else none
        | none => none }
  {st with trade_request_dict := st.trade_request_dict ++ [trade]}

/-- `Game.resolve_accept_trade`.  When the trade exists the body first fills
`offered_amount` if unset, then evaluates `trade.offered_tkind` - an
attribute no `TradeRequest` ever defines - so an `AttributeError` is raised
(and re-raised by `resolve_trade_orders`).  The source lines after that point
(filling the offered kind from `order[3]`, itself out of range for the
3-field `AcceptTradeOrder`, and assigning the trade object to the
confirmation flag of the sender's role) are unreachable.  The error carries
the state as already mutated. -/
def resolve_accept_trade (trade_id : Nat) (offered_amount : ℚ)
    (_offered_good : String) (_sender : String) (st : GameState) :
    Except (PyErr × GameState) GameState :=
  match tradeById st trade_id with
  | none => .ok st
  | some trade =>
    let st :=
      if trade.offered_amount = none ∧ offered_amount ≠ 0 then
        updateTrade st trade.id_ (fun t => {t with offered_amount := some offered_amount})
      else st
    .error (.attributeError "offered_tkind", st)

/-- `Game.resolve_cancel_trade`: the requester cancels the trade, the partner
steps down by clearing the partner confirmation; anyone else is ignored. -/
def resolve_cancel_trade (trade_id : Nat) (sender : String) (st : GameState) :
    GameState :=
  match tradeById st trade_id with
  | none => st
  | some trade =>
    if pyEq (.vnetwork sender) (.vnetwork trade.requester) then
      updateTrade st trade.id_ (fun t => {t with cancelled := true})
    else if pyEq (.vnetwork sender) (netVal trade.tradepartner) then
      updateTrade st trade.id_ (fun t => {t with confirmed_tradepartner := false})
    else st

/-- `Game.resolve_send`: gate on a valid resource kind, compute the sender's
post-debit balance, and when it is nonnegative and the receiver is known,
write the debit and then the credit (the credit was computed from the
receiver's pre-debit balance).  The trade bookkeeping compares `sender.name`
(a `str`) against `trade.requester` / `trade.tradepartner` (`Network`
objects or `None`), comparisons that are always `False` in Python. -/
def resolve_send (receiver : String) (amount : ℚ) (good : String) (trade_id : Nat)
    (sender : String) (st : GameState) : GameState :=
  match networkByName st sender with
  | none => st
  | some senderNw =>
    let receiverNw := networkByName st receiver
    let trade := tradeById st trade_id
    if good ∈ RESOURCES then
      let sender_value := senderNw.attrs good - amount
      match receiverNw with
      | some receiverNw =>
        if 0 ≤ sender_value then
          let receiver_value := receiverNw.attrs good + amount
          let st := setNetworkAttr st sender good sender_value
          let st := setNetworkAttr st receiver good receiver_value
          match trade with
          | some trade =>
            let st :=
              if pyEq (.vstr sender) (.vnetwork trade.requester) then
                updateTrade st trade.id_ (fun t => {t with requester_executed := true})
              else st
            if pyEq (.vstr sender) (netVal trade.tradepartner) then
              updateTrade st trade.id_ (fun t => {t with tradepartner_executed := true})
            else st
          | none => st
        else st
      | none => st
    else st

/-! ## Movement, combat, build, research, production phases -/

/-- The `MoveOrder` branch of `Game.process_move_orders` for one order.  The
`try/except` around the body is commented out in the source, so a source
coordinate missing from `field_dict` raises `AttributeError` at
`field.military`, and a missing target raises `AttributeError` inside
`distance_vector` at `coordinates_b.x`; both propagate.  The executed branch
clamps the amount to `sorted([0, requested, source.military])[1]`, requires
the source to be owned by the mover and `distance <= 1` (for the integer
squared distance, `sqrt d <= 1` iff `d <= 1`) and a nonzero clamped amount,
then credits the target's transient map and debits the source. -/
def process_move_order (mover : String) (military : ℚ) (fieldC targetC : Coordinates)
    (bd : GameBoard) : Except (PyErr × GameBoard) GameBoard :=
  match bd.fields fieldC with
  | none => .error (.attributeError "military", bd)
  | some field =>
    match bd.fields targetC with
    | none => .error (.attributeError "x", bd)
    | some _ =>
      let military := (sortAsc [0, military, field.military]).getD 1 0
      if pyEq (netVal field.network) (.vnetwork mover)
          ∧ distanceSq bd.width bd.height fieldC targetC ≤ 1 ∧ military ≠ 0 then
        let bd := {bd with fields := (fun c =>
          if c = targetC then
            (bd.fields c).map (fun (t : Field) =>
              {t with moved_military := mmAdd t.moved_military (some mover) military})
          else bd.fields c)}
        let bd := {bd with fields := (fun c =>
          if c = fieldC then
            (bd.fields c).map (fun (f : Field) => {f with military := f.military - military})
          else bd.fields c)}
        .ok bd
      else .ok bd

/-- Python stable insertion for a descending sort: an earlier element stays in
front of every later element of no greater mass. -/
def insertTroop (x : Option String × ℚ) :
    List (Option String × ℚ) → List (Option String × ℚ)
  | [] => [x]
  | y :: ys => if x.2 ≥ y.2 then x :: y :: ys else y :: insertTroop x ys

/-- `sorted(troops, key=lambda x: x[1], reverse=True)`: stable sort by mass,
descending. -/
def sortTroops : List (Option String × ℚ) → List (Option String × ℚ)
  | [] => []
  | x :: xs => insertTroop x (sortTroops xs)

/-- The per-field body of `Game.resolve_combat`: when the transient map is
nonempty, tally the resident military under the current owner's key, sort the
parties by mass descending, and either (two or more parties) set the military
to winner minus runner-up, transfer ownership only on a strictly greater
mass, and divide the three immovable brut accumulators by
`1 + runner_up / winner`, or (exactly one party) set the military to that
party's mass; finally clear the transient map. -/
def resolve_combat_field (f : Field) : Field :=
  if f.moved_military = [] then f
  else
    match sortTroops (mmAdd f.moved_military f.network f.military) with
    | winner :: runner_up :: _ =>
      let f := {f with military := winner.2 - runner_up.2}
      let f := if winner.2 > runner_up.2 then {f with network := winner.1} else f
      let divid_er := 1 + runner_up.2 / winner.2
      { f with industry_brut := f.industry_brut / divid_er
               research_brut := f.research_brut / divid_er
               commerce_brut := f.commerce_brut / divid_er
               moved_military := [] }
    | [t] => {f with military := t.2, moved_military := []}
    | [] => {f with moved_military := []}

/-- `Game.resolve_combat`: the per-field body over every board field. -/
def resolve_combat (st : GameState) : GameState :=
  {st with board := {st.board with fields := (fun c =>
    (st.board.fields c).map resolve_combat_field)}}

/-- The `BuildOrder` branch of `Game.process_build_orders` for one order.
`field_dict[order.field]` raises `KeyError` for a coordinate that is not on
the board (the `try/except` is commented out); otherwise `Field.build` runs
only when the field's owner is the issuing network. -/
def process_build_order (F : FloatOps) (builder : String) (fieldC : Coordinates)
    (resource : String) (money color1 color2 : ℚ) (st : GameState) :
    Except (PyErr × GameState) GameState :=
  match st.board.fields fieldC with
  | none => .error (.keyError, st)
  | some field =>
    if pyEq (netVal field.network) (.vnetwork builder) then
      match field.network with
      | some ownerName =>
        match networkByName st ownerName with
        | some owner =>
          let fo := fieldBuild F field owner resource money color1 color2
          let st := updateField st fieldC (fun _ => fo.1)
          .ok (updateNetwork st ownerName (fun _ => fo.2))
        | none => .ok st
      | none => .ok st
    else .ok st

/-- The board's field iteration order: `Board.__init__` creates fields
row-major (`for i in range(W): for j in range(H)`). -/
def allCoords (W H : Nat) : List Coordinates :=
  (List.range W).flatMap (fun i => (List.range H).map (fun j => ⟨(i : Int), (j : Int)⟩))

/-- `Field.generate_money` / `generate_military` / `generate_insight` for the
field at one coordinate: if owned, multiply the local effective stat by the
owner's network-level multiplier and credit the owner's money, the field's
military, and the owner's insight respectively. -/
def generateForField (F : FloatOps) (st : GameState) (c : Coordinates) : GameState :=
  match st.board.fields c with
  | none => st
  | some field =>
    match field.network with
    | none => st
    | some ownerName =>
      match networkByName st ownerName with
      | none => st
      | some owner =>
        let money := immovableFunc F field.commerce_brut * networkEff F owner "production"
        let st := updateNetwork st ownerName
          (fun nw => nw.setAttr "money" (nw.attrs "money" + money))
        let military := immovableFunc F field.industry_brut * networkEff F owner "power"
        let st := updateField st c (fun f => {f with military := f.military + military})
        let insight := immovableFunc F field.research_brut * networkEff F owner "intelligence"
        updateNetwork st ownerName
          (fun nw => nw.setAttr "insight" (nw.attrs "insight" + insight))

/-- `Field.generate_colors` for one coordinate: add all six raw field colors
into the owner's pools (the field quantities are not zeroed). -/
def generateColorsForField (st : GameState) (c : Coordinates) : GameState :=
  match st.board.fields c with
  | none => st
  | some field =>
    match field.network with
    | none => st
    | some ownerName =>
      updateNetwork st ownerName (fun nw =>
        COLORS.foldl (fun nw color => nw.add_resource color (fieldColor field color)) nw)

/-- `Game.generate_stuff`: a money/military/insight pass over every field,
then a colors pass. -/
def generate_stuff (F : FloatOps) (st : GameState) : GameState :=
  let st := (allCoords st.board.width st.board.height).foldl (generateForField F) st
  (allCoords st.board.width st.board.height).foldl generateColorsForField st

/-- `Game.calculate_network_fields`: recompute every network's derived list of
owned fields (as board coordinates, in board iteration order). -/
def calculate_network_fields (st : GameState) : GameState :=
  {st with networks := st.networks.map (fun nw =>
    {nw with fields := (allCoords st.board.width st.board.height).filter (fun c =>
      match st.board.fields c with
      | some f => pyEq (netVal f.network) (.vnetwork nw.name)
      | none => false)})}

/-- `Game.clear_orders`. -/
def clear_orders (st : GameState) : GameState := {st with orders := []}

/-- The loop of `Game.get_orders`: query each network's agent in network
order; the first agent failure is reported with the offending network's name
and re-raised, so no order mapping is committed. -/
def collectOrders (agents : String → Except String (List Order)) :
    List String → Except (String × String) (List (String × List Order))
  | [] => .ok []
  | n :: ns =>
    match agents n with
    | .error msg => .error (n, msg)
    | .ok os => (collectOrders agents ns).map (fun rest => (n, os) :: rest)

/-- `Game.gather_data`: append, for every tracked stat and network index, this
turn's total (field stats summed over owned fields, research stats read from
the network) to the history table. -/
def gather_data (F : FloatOps) (st : GameState) : GameState :=
  let fieldTotal : String → Nat → ℚ := fun stat nid =>
    (allCoords st.board.width st.board.height).foldl (fun acc c =>
      match st.board.fields c with
      | some f =>
        match st.networks.get? nid with
        | some nw => if pyEq (netVal f.network) (.vnetwork nw.name)
            then acc + fieldStat F f stat else acc
        | none => acc
      | none => acc) 0
  let researchTotal : String → Nat → ℚ := fun stat nid =>
    match st.networks.get? nid with
    | some nw => networkEff F nw stat
    | none => 0
  {st with data := fun stat nid =>
    if nid < st.networks.length ∧ (stat ∈ FIELD_STATS ∨ stat ∈ RESEARCH) then
      st.data stat nid ++
        [if stat ∈ FIELD_STATS then fieldTotal stat nid else researchTotal stat nid]
    else st.data stat nid}

/-! ## The order-resolution drivers and the turn pipeline -/

/-- Fold a per-order step over the committed order mapping (network-major,
order within each list), short-circuiting on the first exception. -/
def foldOrders (step : String → Order → GameState → Except (TurnErr × GameState) GameState)
    (st : GameState) : Except (TurnErr × GameState) GameState :=
  st.orders.foldl
    (fun acc p => acc.bind (fun s =>
      p.2.foldl (fun acc2 o => acc2.bind (step p.1 o)) (.ok s)))
    (.ok st)

/-- The movement-phase step: only `MoveOrder`s act. -/
def moveStep (mover : String) (o : Order) (st : GameState) :
    Except (TurnErr × GameState) GameState :=
  match o with
  | .move military field target =>
    match process_move_order mover military field target st.board with
    | .ok bd => .ok {st with board := bd}
    | .error (e, bd) => .error (.pyError e, {st with board := bd})
  | _ => .ok st

/-- The trade-phase step of `Game.resolve_trade_orders`: dispatch on the four
trade order kinds (everything else is a no-op via the dictionary default);
exceptions are re-raised. -/
def tradeStep (sender : String) (o : Order) (st : GameState) :
    Except (TurnErr × GameState) GameState :=
  match o with
  | .requestTrade p ra rg oa og => .ok (resolve_request_trade p ra rg oa og sender st)
  | .acceptTrade tid oa og =>
    match resolve_accept_trade tid oa og sender st with
    | .ok st => .ok st
    | .error (e, st) => .error (.pyError e, st)
  | .cancelTrade tid => .ok (resolve_cancel_trade tid sender st)
  | .send receiver amount good tid => .ok (resolve_send receiver amount good tid sender st)
  | _ => .ok st

/-- The build-phase step: only `BuildOrder`s act. -/
def buildStep (F : FloatOps) (builder : String) (o : Order) (st : GameState) :
    Except (TurnErr × GameState) GameState :=
  match o with
  | .build field resource money color1 color2 =>
    match process_build_order F builder field resource money color1 color2 st with
    | .ok st => .ok st
    | .error (e, st) => .error (.pyError e, st)
  | _ => .ok st

/-- The research-phase step: only `ResearchOrder`s act, on the issuing
network. -/
def researchStep (researcher : String) (o : Order) (st : GameState) :
    Except (TurnErr × GameState) GameState :=
  match o with
  | .research subject insight =>
    .ok (updateNetwork st researcher (fun nw => nw.researchSpend subject insight))
  | _ => .ok st

/-- `Game.do_turn`: the fixed phase pipeline.  An agent failure in
`get_orders` aborts the turn before any order takes effect; any exception in
a later phase propagates with the state as mutated so far; only a turn that
runs every phase records a stat snapshot and advances the counter. -/
def do_turn (F : FloatOps) (agents : String → Except String (List Order))
    (st : GameState) : Except (TurnErr × GameState) GameState :=
  let st := calculate_network_fields st
  let st := clear_orders st
  match collectOrders agents (st.networks.map (fun nw => nw.name)) with
  | .error (name, msg) => .error (.agentFailure name msg, st)
  | .ok orders =>
    let st := {st with orders := orders}
    (foldOrders moveStep st).bind (fun st =>
      let st := resolve_combat st
      let st := calculate_network_fields st
      (foldOrders tradeStep st).bind (fun st =>
        let st := generate_stuff F st
        (foldOrders (buildStep F) st).bind (fun st =>
          (foldOrders researchStep st).bind (fun st =>
            let st := gather_data F st
            .ok {st with turn := st.turn + 1}))))

/-! ## Projections and concrete scenarios used by the verification -/

/-- The exception (if any) of a state-carrying `Except` result. -/
def exErr {E S : Type _} : Except (E × S) S → Option E
  | .ok _ => none
  | .error (e, _) => some e

/-- An arbitrary instantiation of the uninterpreted float operations, used
only to evaluate closed scenarios; no theorem depends on its values. -/
def trivialFloatOps : FloatOps := ⟨fun _ => 0, fun _ => 0⟩

/-- A fully populated `W x H` board of fresh fields. -/
def fullBoard (W H : Nat) : GameBoard :=
  ⟨W, H, fun c => if 0 ≤ c.x ∧ c.x < W ∧ 0 ≤ c.y ∧ c.y < H then some emptyField else none⟩

/-- A two-network game on a full 2x2 board, fresh from construction. -/
def stAB : GameState :=
  { networks := [mkNetwork "A", mkNetwork "B"], board := fullBoard 2 2 }

/-- `stAB` after network A requested trade 0: 5 money from B for 3 insight. -/
def stReq : GameState :=
  resolve_request_trade (some "B") 5 "money" (some 3) (some "insight") "A" stAB

/-- The committed orders of a turn in which A issues the trade request and
both sides issue the matching `AcceptTradeOrder`. -/
def tradeLifecycleState : GameState :=
  {stAB with orders :=
    [("A", [.requestTrade (some "B") 5 "money" (some 3) (some "insight"),
            .acceptTrade 0 3 "insight"]),
     ("B", [.acceptTrade 0 3 "insight"])]}

/-- `stReq` after A sends B the 5 money, quoting trade 0. -/
def stSend : GameState := resolve_send "B" 5 "money" 0 "A" stReq

/-- Like `stAB` but with network B's money zeroed out. -/
def stBroke : GameState :=
  {stAB with networks := [mkNetwork "A", (mkNetwork "B").setAttr "money" 0]}

/-- A 3x3 board where field (0,0) holds 5 military for owner A. -/
def bdMove : GameBoard :=
  ⟨3, 3, fun c =>
    if c = ⟨0, 0⟩ then some {emptyField with military := 5, network := some "A"}
    else if 0 ≤ c.x ∧ c.x < 3 ∧ 0 ≤ c.y ∧ c.y < 3 then some emptyField else none⟩

/-- A degenerate 1x1 board: every ring offset wraps back onto the origin. -/
def board1x1 : GameBoard := fullBoard 1 1

/-- Agents for the failure scenario: network B's agent raises, everyone else
returns an empty order list. -/
def agentsBFails : String → Except String (List Order) :=
  fun n => if n == "B" then .error "agent raised" else .ok []

/-- The contested field of the combat example: no resident military, no
owner, incoming tallies A:10 and B:4, and nonzero immovable accumulators. -/
def combatField : Field :=
  { emptyField with
      commerce_brut := 7, industry_brut := 14, research_brut := 21,
      moved_military := [(some "A", 10), (some "B", 4)] }

/-! ## Helper lemmas -/

section Lemmas

lemma wrapDelta_neg {E : Nat} {d : Int} (h1 : -(E : Int) < d) (h2 : d < (E : Int)) :
    wrapDelta E (-d) = -wrapDelta E d := by
  unfold wrapDelta
  split_ifs <;> omega

lemma wrapDelta_bound {E : Nat} {d : Int} (h1 : -(E : Int) < d) (h2 : d < (E : Int)) :
    -(E : Int) ≤ 2 * wrapDelta E d ∧ 2 * wrapDelta E d ≤ (E : Int) := by
  unfold wrapDelta
  split_ifs <;> omega

end Lemmas

/-! ## The claims -/

/-- C1: at combat resolution, a field with a nonempty transient
incoming-military map whose tally (after adding the resident military under
the current owner's key) sorts to at least two parties ends with military
equal to the largest mass minus the second-largest, with ownership moving to
the largest party exactly when its mass is strictly greater, and with each of
the three immovable raw accumulators divided by
`1 + runner_up.mass / winner.mass`. -/
theorem combat_two_party_resolution (f : Field) (w ru : Option String × ℚ)
    (rest : List (Option String × ℚ))
    (hmm : f.moved_military ≠ [])
    (hsort : sortTroops (mmAdd f.moved_military f.network f.military) = w :: ru :: rest) :
    (resolve_combat_field f).military = w.2 - ru.2
    ∧ (resolve_combat_field f).network = (if ru.2 < w.2 then w.1 else f.network)
    ∧ (resolve_combat_field f).commerce_brut = f.commerce_brut / (1 + ru.2 / w.2)
    ∧ (resolve_combat_field f).industry_brut = f.industry_brut / (1 + ru.2 / w.2)
    ∧ (resolve_combat_field f).research_brut = f.research_brut / (1 + ru.2 / w.2)
    ∧ (resolve_combat_field f).moved_military = [] := by
  unfold resolve_combat_field
  rw [if_neg hmm, hsort]
  by_cases hlt : ru.2 < w.2
  · simp [hlt, gt_iff_lt]
  · simp [hlt, gt_iff_lt]

/-- Witness for C1: the spec's example, incoming tallies A:10 and B:4 on a
field with no resident military and no owner, gives military `10 - 4 = 6`,
owner A, and all three immovable accumulators divided by `1.4`. -/
theorem combat_two_party_resolution_witness :
    (resolve_combat_field combatField).military = 6
    ∧ (resolve_combat_field combatField).network = some "A"
    ∧ (resolve_combat_field combatField).commerce_brut = 7 / 1.4
    ∧ (resolve_combat_field combatField).industry_brut = 14 / 1.4
    ∧ (resolve_combat_field combatField).research_brut = 21 / 1.4
    ∧ (1 + (4 : ℚ) / 10) = 1.4 := by
  obtain ⟨h1, h2, h3, h4, h5, _⟩ :=
    combat_two_party_resolution combatField (some "A", 10) (some "B", 4) [(none, 0)]
      (by decide) (by decide)
  refine ⟨?_, ?_, ?_, ?_, ?_, by norm_num⟩
  · rw [h1]; norm_num
  · rw [h2]; norm_num
  · rw [h3]; simp [combatField, emptyField]; norm_num
  · rw [h4]; simp [combatField, emptyField]; norm_num
  · rw [h5]; simp [combatField, emptyField]; norm_num

/-- C8: on a `W x H` toroidal board the squared wrapped distance is
symmetric, each wrapped per-axis delta has magnitude at most half the
corresponding extent, and consequently the distance
(`Real.sqrt` of `distanceSq`, exactly what `Board.distance` computes) is at
most `sqrt((W/2)^2 + (H/2)^2)`. -/
theorem distance_symmetric_and_bounded (W H : Nat) (a b : Coordinates)
    (hax : 0 ≤ a.x) (hax2 : a.x < (W : Int)) (hay : 0 ≤ a.y) (hay2 : a.y < (H : Int))
    (hbx : 0 ≤ b.x) (hbx2 : b.x < (W : Int)) (hby : 0 ≤ b.y) (hby2 : b.y < (H : Int)) :
    distanceSq W H a b = distanceSq W H b a
    ∧ 2 * |(distance_vector W H a b).x| ≤ (W : Int)
    ∧ 2 * |(distance_vector W H a b).y| ≤ (H : Int)
    ∧ Real.sqrt (distanceSq W H a b : ℝ) ≤ Real.sqrt (((W : ℝ) / 2) ^ 2 + ((H : ℝ) / 2) ^ 2) := by
  have hxr1 : -(W : Int) < b.x - a.x := by omega
  have hxr2 : b.x - a.x < (W : Int) := by omega
  have hyr1 : -(H : Int) < b.y - a.y := by omega
  have hyr2 : b.y - a.y < (H : Int) := by omega
  have hbx' := wrapDelta_bound hxr1 hxr2
  have hby' := wrapDelta_bound hyr1 hyr2
  have hsym : distanceSq W H a b = distanceSq W H b a := by
    unfold distanceSq distance_vector
    rw [show a.x - b.x = -(b.x - a.x) by ring, show a.y - b.y = -(b.y - a.y) by ring,
      wrapDelta_neg hxr1 hxr2, wrapDelta_neg hyr1 hyr2]
    ring
  have habsx : 2 * |wrapDelta W (b.x - a.x)| ≤ (W : Int) := by
    rcases hbx' with ⟨hl, hr⟩
    rcases abs_cases (wrapDelta W (b.x - a.x)) with ⟨he, _⟩ | ⟨he, _⟩ <;> rw [he] <;> omega
  have habsy : 2 * |wrapDelta H (b.y - a.y)| ≤ (H : Int) := by
    rcases hby' with ⟨hl, hr⟩
    rcases abs_cases (wrapDelta H (b.y - a.y)) with ⟨he, _⟩ | ⟨he, _⟩ <;> rw [he] <;> omega
  refine ⟨hsym, habsx, habsy, ?_⟩
  have hb4 : 4 * distanceSq W H a b ≤ (W : Int) ^ 2 + (H : Int) ^ 2 := by
    have h1 : (2 * wrapDelta W (b.x - a.x)) ^ 2 ≤ (W : Int) ^ 2 :=
      sq_le_sq' (by rcases hbx' with ⟨hl, _⟩; omega) (by rcases hbx' with ⟨_, hr⟩; omega)
    have h2 : (2 * wrapDelta H (b.y - a.y)) ^ 2 ≤ (H : Int) ^ 2 :=
      sq_le_sq' (by rcases hby' with ⟨hl, _⟩; omega) (by rcases hby' with ⟨_, hr⟩; omega)
    unfold distanceSq distance_vector
    nlinarith [h1, h2]
  apply Real.sqrt_le_sqrt
  have h4r : (4 : ℝ) * ((distanceSq W H a b : Int) : ℝ) ≤ (W : ℝ) ^ 2 + (H : ℝ) ^ 2 := by
    exact_mod_cast hb4
  have hring : ((W : ℝ) / 2) ^ 2 + ((H : ℝ) / 2) ^ 2 = ((W : ℝ) ^ 2 + (H : ℝ) ^ 2) / 4 := by
    ring
  rw [hring]
  linarith

/-- Witness for C8 at `W = H = 20`, `a = (0,0)`, `b = (15,15)` (the spec's
wrapping example): symmetry, per-axis bounds, and the distance bound hold. -/
theorem distance_symmetric_and_bounded_witness :
    distanceSq 20 20 ⟨0, 0⟩ ⟨15, 15⟩ = distanceSq 20 20 ⟨15, 15⟩ ⟨0, 0⟩
    ∧ 2 * |(distance_vector 20 20 ⟨0, 0⟩ ⟨15, 15⟩).x| ≤ (20 : Int)
    ∧ 2 * |(distance_vector 20 20 ⟨0, 0⟩ ⟨15, 15⟩).y| ≤ (20 : Int)
    ∧ Real.sqrt (distanceSq 20 20 ⟨0, 0⟩ ⟨15, 15⟩ : ℝ) ≤
        Real.sqrt (((20 : ℝ) / 2) ^ 2 + ((20 : ℝ) / 2) ^ 2) :=
  distance_symmetric_and_bounded 20 20 ⟨0, 0⟩ ⟨15, 15⟩
    (by decide) (by decide) (by decide) (by decide)
    (by decide) (by decide) (by decide) (by decide)

/-- C2 (code bug): in the lifecycle the claim describes - a `RequestTrade`
followed by an `AcceptTrade` from each side - the trade phase raises
`AttributeError` on `trade.offered_tkind`, an attribute `TradeRequest` never
defines, as soon as the first `AcceptTrade` finds its trade; the exception is
re-raised by `resolve_trade_orders`, and the confirmation-flag statements
(which would also read `order[3]`, out of range, and store the trade object
instead of a boolean) are never reached. -/
theorem accept_trade_raises_attribute_error :
    exErr (foldOrders tradeStep tradeLifecycleState) =
      some (.pyError (.attributeError "offered_tkind")) := by
  simp [tradeLifecycleState, stAB, foldOrders, tradeStep, resolve_request_trade,
    resolve_accept_trade, networkByName, tradeById, updateTrade, mkNetwork,
    RESOURCES, fullBoard, List.find?, exErr, Except.bind]

/-- C3 (code bug): a send that succeeds and quotes a known trade in which the
sender is the requester (trade 0: requester A, partner B) transfers the
money, but marks neither execution flag: `resolve_send` compares
`sender.name` (a `str`) with `trade.requester` / `trade.tradepartner`
(`Network` objects), which is always `False` in Python. -/
theorem send_never_marks_execution_flags :
    (tradeById stSend 0).map (fun t => (t.requester, t.tradepartner)) =
      some ("A", some "B")
    ∧ (networkByName stSend "A").map (fun nw => nw.attrs "money") = some 95
    ∧ (networkByName stSend "B").map (fun nw => nw.attrs "money") = some 105
    ∧ (tradeById stSend 0).map (fun t => (t.requester_executed, t.tradepartner_executed)) =
      some (false, false) := by
  have h1 : (0 : ℚ) ≤ 100 - 5 := by norm_num
  have h2 : (100 : ℚ) - 5 = 95 := by norm_num
  have h3 : (100 : ℚ) + 5 = 105 := by norm_num
  refine ⟨?_, ?_, ?_, ?_⟩ <;>
    simp [stSend, stReq, stAB, resolve_send, resolve_request_trade, networkByName,
      tradeById, setNetworkAttr, updateTrade, mkNetwork, Network.setAttr, pyEq, netVal,
      RESOURCES, fullBoard, List.find?, h1, h2, h3]

/-- C4 counterexample: a `MoveOrder` naming the off-board coordinate (5,5) on
the 2x2 board is not silently discarded - `process_move_orders` raises
`AttributeError` (at `field.military`, `field` being `None`), refuting the
claim that such an order is a no-op with no exception. -/
theorem move_unknown_coordinate_raises :
    exErr (process_move_order "A" 3 ⟨5, 5⟩ ⟨0, 0⟩ stAB.board) =
      some (.attributeError "military") := by
  rfl

/-- C5 counterexample: network A (100 money) sends the amount `-5` money to
network B (0 money); the sender-side check `100 - (-5) ≥ 0` passes, so the
transfer executes and leaves B's money at `-5 < 0` - the requested amount is
not clamped to `[0, available]`, and a quantity is driven below zero. -/
theorem negative_send_drives_receiver_negative :
    (networkByName (resolve_send "B" (-5) "money" 99 "A" stBroke) "B").map
        (fun nw => nw.attrs "money") = some (-5)
    ∧ ((-5 : ℚ) < 0) := by
  have h1 : (0 : ℚ) ≤ 100 - -5 := by norm_num
  have h1' : (0 : ℚ) ≤ 100 + 5 := by norm_num
  have h2 : (0 : ℚ) + -5 = -5 := by norm_num
  refine ⟨?_, by norm_num⟩
  simp [stBroke, stAB, resolve_send, networkByName, tradeById, setNetworkAttr,
    mkNetwork, Network.setAttr, pyEq, netVal, RESOURCES, fullBoard, List.find?, h1, h1', h2]

/-- C9 counterexample: on the degenerate 1x1 board every radius-1 offset
wraps back onto the origin, so `get_nearest_field` with an always-true
predicate returns the origin field itself, refuting "never the origin field
itself" as stated for every finite board. -/
theorem nearest_field_returns_origin_on_1x1 :
    get_nearest_field board1x1 ⟨0, 0⟩ (fun _ => true) = some (board1x1.fields ⟨0, 0⟩)
    ∧ board1x1.fields ⟨0, 0⟩ = some emptyField := by
  exact ⟨by decide, by decide⟩

lemma find?_update_eq (name : String) (g : Network → Network)
    (hg : ∀ nw, (g nw).name = nw.name) :
    ∀ (l : List Network) (x : Network),
      l.find? (fun nw => nw.name == name) = some x →
      (l.map (fun nw => if nw.name == name then g nw else nw)).find?
        (fun nw => nw.name == name) = some (g x)
  | [], x, h => by simp [List.find?] at h
  | a :: l, x, h => by
    by_cases ha : a.name = name
    · rw [List.find?_cons_of_pos _ (by simp [ha])] at h
      obtain rfl : a = x := by injection h
      simp only [List.map_cons, if_pos (show (a.name == name) = true by simp [ha])]
      exact List.find?_cons_of_pos _ (by simp [hg, ha])
    · rw [List.find?_cons_of_neg _ (by simp [ha])] at h
      simp only [List.map_cons, if_neg (show ¬(a.name == name) = true by simp [ha])]
      rw [List.find?_cons_of_neg _ (by simp [ha])]
      exact find?_update_eq name g hg l x h

lemma find?_update_ne (name1 name2 : String) (g : Network → Network)
    (hg : ∀ nw, (g nw).name = nw.name) (hne : name1 ≠ name2) :
    ∀ l : List Network,
      (l.map (fun nw => if nw.name == name2 then g nw else nw)).find?
        (fun nw => nw.name == name1) = l.find? (fun nw => nw.name == name1)
  | [] => by simp
  | a :: l => by
    by_cases ha : a.name = name2
    · simp only [List.map_cons, if_pos (show (a.name == name2) = true by simp [ha])]
      rw [List.find?_cons_of_neg _ (by simp [hg, ha]; exact fun he => hne he.symm),
        List.find?_cons_of_neg _ (by simp [ha]; exact fun he => hne he.symm)]
      exact find?_update_ne name1 name2 g hg hne l
    · simp only [List.map_cons, if_neg (show ¬(a.name == name2) = true by simp [ha])]
      by_cases hb : a.name = name1
      · rw [List.find?_cons_of_pos _ (by simp [hb]), List.find?_cons_of_pos _ (by simp [hb])]
      · rw [List.find?_cons_of_neg _ (by simp [hb]), List.find?_cons_of_neg _ (by simp [hb])]
        exact find?_update_ne name1 name2 g hg hne l

lemma networkByName_set_self (st : GameState) (name good : String) (v : ℚ) (n : Network)
    (h : networkByName st name = some n) :
    networkByName (setNetworkAttr st name good v) name = some (n.setAttr good v) := by
  unfold networkByName setNetworkAttr
  exact find?_update_eq name (fun nw => nw.setAttr good v) (fun nw => rfl) st.networks n h

lemma networkByName_set_other (st : GameState) (name1 name2 good : String) (v : ℚ)
    (hne : name1 ≠ name2) :
    networkByName (setNetworkAttr st name2 good v) name1 = networkByName st name1 := by
  unfold networkByName setNetworkAttr
  exact find?_update_ne name1 name2 (fun nw => nw.setAttr good v) (fun nw => rfl) hne st.networks

/-- C10: a `SendOrder` whose receiver is the sender itself, with a valid
resource kind and `0 ≤ amount ≤ balance`, executes and leaves the sender's
balance at `balance + amount`: the receiver credit is computed from the
pre-debit balance and written after the sender debit to the same object, so a
self-addressed send creates resources and the trade phase does not conserve
totals. -/
theorem self_send_creates_resources (st : GameState) (name good : String) (tid : Nat)
    (amount : ℚ) (n : Network)
    (hfind : networkByName st name = some n)
    (hgood : good ∈ RESOURCES) (h0 : 0 ≤ amount) (hle : amount ≤ n.attrs good) :
    (networkByName (resolve_send name amount good tid name st) name).map
      (fun nw => nw.attrs good) = some (n.attrs good + amount) := by
  have hsv : 0 ≤ n.attrs good - amount := by linarith
  have hkey : networkByName
      (setNetworkAttr (setNetworkAttr st name good (n.attrs good - amount))
        name good (n.attrs good + amount)) name =
      some ((n.setAttr good (n.attrs good - amount)).setAttr good (n.attrs good + amount)) :=
    networkByName_set_self _ name good _ _
      (networkByName_set_self st name good _ n hfind)
  unfold resolve_send
  rw [hfind]
  simp only [if_pos hgood, if_pos hsv]
  cases htr : tradeById st tid with
  | none =>
    simp only [hkey]
    simp [Network.setAttr]
  | some tr =>
    have hp1 : pyEq (.vstr name) (.vnetwork tr.requester) = false := rfl
    have hp2 : pyEq (.vstr name) (netVal tr.tradepartner) = false := by
      cases tr.tradepartner <;> rfl
    simp only [hp1, hp2, Bool.false_eq_true, if_false, hkey]
    simp [Network.setAttr]

/-- Witness for C10: with fresh network A (100 money) self-sending 5 money,
the resulting balance is 105. -/
theorem self_send_creates_resources_witness :
    (networkByName (resolve_send "A" 5 "money" 99 "A" stAB) "A").map
      (fun nw => nw.attrs "money") = some ((mkNetwork "A").attrs "money" + 5) :=
  self_send_creates_resources stAB "A" "money" 99 5 (mkNetwork "A") rfl
    (by decide) (by norm_num) (by norm_num [mkNetwork])

lemma request_resource_clamps (n : Network) (resource : String) (amount : ℚ)
    (hv : 0 ≤ n.attrs resource) :
    0 ≤ n.request_resource resource amount
    ∧ n.request_resource resource amount ≤ n.attrs resource := by
  by_cases h1 : amount ≤ n.attrs resource <;> by_cases h2 : (0 : ℚ) ≤ amount <;>
    simp [Network.request_resource, sortAsc, insertAsc, h1, h2, hv, List.getD] <;>
    try (constructor <;> linarith)

lemma networkByName_updateTrade (st : GameState) (id_ : Nat)
    (g : TradeRequest → TradeRequest) (name : String) :
    networkByName (updateTrade st id_ g) name = networkByName st name := rfl

/-- C5 (amended): the debits triggered by build, research and move orders all
go through `Network.request_resource`, which clamps any requested amount
(negative or exceeding the balance) to `[0, available]`; the send path is
instead gated on the sender's post-debit balance being nonnegative, which
keeps the sender of a send to a *different* network nonnegative, but does not
clamp the amount - a negative amount passes the gate and (as the
counterexample shows) drives the receiver's balance below zero. -/
theorem clamped_debits_and_send_guard (n : Network) (resource : String) (amount : ℚ)
    (st : GameState) (sender receiver good : String) (tid : Nat) (amt : ℚ) (sNw : Network)
    (hv : 0 ≤ n.attrs resource)
    (hs : networkByName st sender = some sNw)
    (hsr : sender ≠ receiver)
    (h0 : 0 ≤ sNw.attrs good) :
    (0 ≤ n.request_resource resource amount
      ∧ n.request_resource resource amount ≤ n.attrs resource)
    ∧ 0 ≤ ((networkByName (resolve_send receiver amt good tid sender st) sender).map
        (fun nw => nw.attrs good)).getD 0 := by
  refine ⟨request_resource_clamps n resource amount hv, ?_⟩
  unfold resolve_send
  rw [hs]
  by_cases hg : good ∈ RESOURCES
  · simp only [if_pos hg]
    cases hr : networkByName st receiver with
    | none => simp [hs, h0]
    | some rNw =>
      by_cases hsv : 0 ≤ sNw.attrs good - amt
      · simp only [if_pos hsv]
        have hkey : networkByName
            (setNetworkAttr (setNetworkAttr st sender good (sNw.attrs good - amt))
              receiver good (rNw.attrs good + amt)) sender =
            some (sNw.setAttr good (sNw.attrs good - amt)) := by
          rw [networkByName_set_other _ sender receiver good _ hsr]
          exact networkByName_set_self st sender good _ sNw hs
        cases htr : tradeById st tid with
        | none => simp [hkey, Network.setAttr, hsv]
        | some tr =>
          have hp1 : pyEq (.vstr sender) (.vnetwork tr.requester) = false := rfl
          have hp2 : pyEq (.vstr sender) (netVal tr.tradepartner) = false := by
            cases tr.tradepartner <;> rfl
          simp only [hp1, hp2, Bool.false_eq_true, if_false, networkByName_updateTrade, hkey]
          simp [Network.setAttr, hsv]
      · simp only [if_neg hsv]
        simp [hs, h0]
  · simp only [if_neg hg]
    simp [hs, h0]

/-- Witness for C5 (amended) at a fresh network A requesting `-7` money and a
send of 5 money from A to B on `stAB`. -/
theorem clamped_debits_and_send_guard_witness :
    (0 ≤ (mkNetwork "A").request_resource "money" (-7)
      ∧ (mkNetwork "A").request_resource "money" (-7) ≤ (mkNetwork "A").attrs "money")
    ∧ 0 ≤ ((networkByName (resolve_send "B" 5 "money" 99 "A" stAB) "A").map
        (fun nw => nw.attrs "money")).getD 0 :=
  clamped_debits_and_send_guard (mkNetwork "A") "money" (-7) stAB "A" "B" "money" 99 5
    (mkNetwork "A") (by norm_num [mkNetwork]) rfl (by decide) (by norm_num [mkNetwork])

/-- C6: for a `MoveOrder` between two distinct known fields, the movement
phase succeeds without exception, and transfers
`m = sorted([0, requested, source.military])[1]` (the clamp of the request to
`[0, source.military]`) from the source's resident military into the target's
transient incoming-military map if and only if the source is owned by the
issuing network, the wrapped distance is at most 1 (equivalently, the squared
distance is at most 1), and `m` is nonzero; the source is debited
immediately, the target's resident military is untouched, and no other field
changes.  When the condition fails the board is unchanged. -/
theorem move_order_execution (bd : GameBoard) (mover : String) (mil : ℚ)
    (cS cT : Coordinates) (fS fT : Field)
    (hS : bd.fields cS = some fS) (hT : bd.fields cT = some fT) (hne : cS ≠ cT) :
    ((pyEq (netVal fS.network) (.vnetwork mover) = true
        ∧ distanceSq bd.width bd.height cS cT ≤ 1
        ∧ (sortAsc [0, mil, fS.military]).getD 1 0 ≠ 0) →
      ∃ bd', process_move_order mover mil cS cT bd = .ok bd'
        ∧ bd'.fields cS =
            some {fS with military := fS.military - (sortAsc [0, mil, fS.military]).getD 1 0}
        ∧ bd'.fields cT =
            some {fT with moved_military := (mmAdd fT.moved_military (some mover)
              ((sortAsc [0, mil, fS.military]).getD 1 0))}
        ∧ ∀ c, c ≠ cS → c ≠ cT → bd'.fields c = bd.fields c)
    ∧ (¬(pyEq (netVal fS.network) (.vnetwork mover) = true
        ∧ distanceSq bd.width bd.height cS cT ≤ 1
        ∧ (sortAsc [0, mil, fS.military]).getD 1 0 ≠ 0) →
      process_move_order mover mil cS cT bd = .ok bd) := by
  constructor
  · intro hcond
    simp only [process_move_order, hS, hT]
    rw [if_pos hcond]
    refine ⟨_, rfl, ?_, ?_, ?_⟩
    · simp [hne, hS]
    · simp [hne, Ne.symm hne, hT]
    · intro c hc1 hc2
      simp [hc1, hc2]
  · intro hcond
    simp only [process_move_order, hS, hT]
    rw [if_neg hcond]

/-- Witness for C6: on `bdMove`, A moves 3 of the 5 military from (0,0) to
the adjacent (0,1); the source is debited to `5 - 3` and the target's
transient map gains `(A, 3)` while its resident military stays as it was. -/
theorem move_order_execution_witness :
    ∃ bd', process_move_order "A" 3 ⟨0, 0⟩ ⟨0, 1⟩ bdMove = .ok bd'
      ∧ bd'.fields ⟨0, 0⟩ =
          some {emptyField with network := some "A", military := (5 -
            (sortAsc [0, 3, 5]).getD 1 0)}
      ∧ bd'.fields ⟨0, 1⟩ =
          some {emptyField with moved_military := (mmAdd [] (some "A")
            ((sortAsc [0, 3, 5]).getD 1 0))} := by
  have hS : bdMove.fields ⟨0, 0⟩ = some {emptyField with military := 5, network := some "A"} :=
    rfl
  have hT : bdMove.fields ⟨0, 1⟩ = some emptyField := rfl
  have hm : (sortAsc [0, (3 : ℚ), 5]).getD 1 0 ≠ 0 := by
    norm_num [sortAsc, insertAsc, List.getD]
  obtain ⟨bd', h1, h2, h3, _⟩ :=
    (move_order_execution bdMove "A" 3 ⟨0, 0⟩ ⟨0, 1⟩ _ _ hS hT (by decide)).1
      ⟨by decide, by decide, hm⟩
  exact ⟨bd', h1, h2, h3⟩

lemma calculate_network_fields_names (st : GameState) :
    (calculate_network_fields st).networks.map (fun nw => nw.name) =
      st.networks.map (fun nw => nw.name) := by
  unfold calculate_network_fields
  rw [List.map_map]
  rfl

/-- C7: if collecting orders fails - some network's agent raises - the turn
is aborted at `get_orders`: `do_turn` returns the failure tagged with the
offending network's name, and the state it leaves behind has the same turn
counter, the same stat-history table (no snapshot recorded), the same board,
and the same trade ledger as before the turn (only the derived ownership
lists were recomputed and the pending orders cleared). -/
theorem agent_failure_aborts_turn (F : FloatOps)
    (agents : String → Except String (List Order)) (st : GameState) (n msg : String)
    (h : collectOrders agents (st.networks.map (fun nw => nw.name)) = .error (n, msg)) :
    ∃ stErr, do_turn F agents st = .error (.agentFailure n msg, stErr)
      ∧ stErr.turn = st.turn ∧ stErr.data = st.data ∧ stErr.board = st.board
      ∧ stErr.trade_request_dict = st.trade_request_dict
      ∧ stErr.trade_counter = st.trade_counter := by
  have h2 : collectOrders agents
      ((clear_orders (calculate_network_fields st)).networks.map (fun nw => nw.name)) =
      .error (n, msg) := by
    rw [show (clear_orders (calculate_network_fields st)).networks
        = (calculate_network_fields st).networks from rfl]
    rw [calculate_network_fields_names]
    exact h
  refine ⟨clear_orders (calculate_network_fields st), ?_, rfl, rfl, rfl, rfl, rfl⟩
  unfold do_turn
  simp only [h2]

/-- Witness for C7: on `stAB` with network B's agent raising, `do_turn`
reports the agent failure under B's name, the turn counter stays at
`stAB.turn`, and no stat snapshot, board change or trade change happens. -/
theorem agent_failure_aborts_turn_witness :
    ∃ stErr, do_turn trivialFloatOps agentsBFails stAB =
        .error (.agentFailure "B" "agent raised", stErr)
      ∧ stErr.turn = stAB.turn ∧ stErr.data = stAB.data ∧ stErr.board = stAB.board
      ∧ stErr.trade_request_dict = stAB.trade_request_dict
      ∧ stErr.trade_counter = stAB.trade_counter :=
  agent_failure_aborts_turn trivialFloatOps agentsBFails stAB "B" "agent raised" (by rfl)

/-- C4 (amended): for the pure trade-side references the claim holds - an
`AcceptTradeOrder` or `CancelTradeOrder` naming an unknown trade id is a
strict no-op, and a `SendOrder` naming an unknown receiver leaves the state
unchanged.  A `SendOrder` naming an unknown trade id raises nothing and
leaves the trade ledger unchanged, but it is not a no-op: when the receiver
is known, the kind valid and the sender's post-debit balance nonnegative, the
transfer still executes (only the execution-flag marking is skipped).  And a
`MoveOrder` whose source or target coordinate is not on the board raises
`AttributeError`, while a `BuildOrder` naming an off-board coordinate raises
`KeyError`; these exceptions propagate instead of the order being silently
discarded. -/
theorem unresolved_reference_order_behaviour (F : FloatOps) (st : GameState)
    (sender receiver receiver2 good : String) (tid : Nat)
    (oa amount mil money color1 color2 : ℚ)
    (og resource : String) (bd : GameBoard) (cU cK cU2 : Coordinates) (fld : Field)
    (sNw rNw : Network)
    (hTid : tradeById st tid = none)
    (hRecv : networkByName st receiver = none)
    (hs : networkByName st sender = some sNw)
    (hr2 : networkByName st receiver2 = some rNw)
    (hg : good ∈ RESOURCES)
    (hsv : 0 ≤ sNw.attrs good - amount)
    (hns : sender ≠ receiver2)
    (hbC : bd.fields cU = none)
    (hbK : bd.fields cK = some fld)
    (hbC2 : bd.fields cU2 = none)
    (hSB : st.board.fields cU = none) :
    resolve_accept_trade tid oa og sender st = .ok st
    ∧ resolve_cancel_trade tid sender st = st
    ∧ resolve_send receiver amount good tid sender st = st
    ∧ (resolve_send receiver2 amount good tid sender st).trade_request_dict =
        st.trade_request_dict
    ∧ networkByName (resolve_send receiver2 amount good tid sender st) sender =
        some (sNw.setAttr good (sNw.attrs good - amount))
    ∧ networkByName (resolve_send receiver2 amount good tid sender st) receiver2 =
        some (rNw.setAttr good (rNw.attrs good + amount))
    ∧ process_move_order sender mil cU cK bd = .error (.attributeError "military", bd)
    ∧ process_move_order sender mil cK cU2 bd = .error (.attributeError "x", bd)
    ∧ process_build_order F sender cU resource money color1 color2 st =
        .error (.keyError, st) := by
  have hsendZ : resolve_send receiver amount good tid sender st = st := by
    unfold resolve_send
    cases hs2 : networkByName st sender with
    | none => rfl
    | some s2 =>
      by_cases hg2 : good ∈ RESOURCES
      · simp only [if_pos hg2, hRecv]
      · simp only [if_neg hg2]
  have hsend2 : resolve_send receiver2 amount good tid sender st =
      setNetworkAttr (setNetworkAttr st sender good (sNw.attrs good - amount))
        receiver2 good (rNw.attrs good + amount) := by
    unfold resolve_send
    rw [hs]
    simp only [if_pos hg, hr2, if_pos hsv, hTid]
  refine ⟨?_, ?_, hsendZ, ?_, ?_, ?_, ?_, ?_, ?_⟩
  · simp only [resolve_accept_trade, hTid]
  · simp only [resolve_cancel_trade, hTid]
  · rw [hsend2]
    rfl
  · rw [hsend2, networkByName_set_other _ sender receiver2 good _ hns]
    exact networkByName_set_self st sender good _ sNw hs
  · rw [hsend2]
    refine networkByName_set_self _ receiver2 good _ rNw ?_
    rw [networkByName_set_other _ receiver2 sender good _ (fun h => hns h.symm)]
    exact hr2
  · simp only [process_move_order, hbC]
  · simp only [process_move_order, hbK, hbC2]
  · simp only [process_build_order, hSB]

/-- Witness for C4 (amended) on the concrete request state `stReq` (one trade
with id 0) and the 2x2 board: trade id 99 and receiver "Z" are unknown,
receiver "B" is known, coordinates (5,5) and (7,7) are off the board, (0,0)
is on it; A's send of 5 money to B quoting unknown trade 99 leaves the ledger
unchanged yet executes the transfer. -/
theorem unresolved_reference_order_behaviour_witness :
    resolve_accept_trade 99 3 "insight" "A" stReq = .ok stReq
    ∧ resolve_cancel_trade 99 "A" stReq = stReq
    ∧ resolve_send "Z" 5 "money" 99 "A" stReq = stReq
    ∧ (resolve_send "B" 5 "money" 99 "A" stReq).trade_request_dict =
        stReq.trade_request_dict
    ∧ networkByName (resolve_send "B" 5 "money" 99 "A" stReq) "A" =
        some ((mkNetwork "A").setAttr "money" ((mkNetwork "A").attrs "money" - 5))
    ∧ networkByName (resolve_send "B" 5 "money" 99 "A" stReq) "B" =
        some ((mkNetwork "B").setAttr "money" ((mkNetwork "B").attrs "money" + 5))
    ∧ process_move_order "A" 3 ⟨5, 5⟩ ⟨0, 0⟩ stAB.board =
        .error (.attributeError "military", stAB.board)
    ∧ process_move_order "A" 3 ⟨0, 0⟩ ⟨7, 7⟩ stAB.board =
        .error (.attributeError "x", stAB.board)
    ∧ process_build_order trivialFloatOps "A" ⟨5, 5⟩ "commerce" 1 1 1 stReq =
        .error (.keyError, stReq) :=
  unresolved_reference_order_behaviour trivialFloatOps stReq "A" "Z" "B" "money" 99 3 5 3
    1 1 1 "insight" "commerce" stAB.board ⟨5, 5⟩ ⟨0, 0⟩ ⟨7, 7⟩ emptyField
    (mkNetwork "A") (mkNetwork "B")
    (by rfl) (by rfl) (by rfl) (by rfl) (by decide) (by norm_num [mkNetwork])
    (by decide) (by rfl) (by rfl) (by rfl) (by rfl)

lemma findSome?_const_none {α β : Type _} :
    ∀ l : List α, (l.findSome? (fun _ => (none : Option β))) = none
  | [] => rfl
  | _ :: l => by
    rw [List.findSome?_cons]
    exact findSome?_const_none l

lemma ringSearch_false (B : GameBoard) (c : Coordinates) (count : Nat) :
    ringSearch B c (fun _ => false) count = none :=
  findSome?_const_none (ringCoords count)

lemma nearestLoop_false (B : GameBoard) (c : Coordinates) :
    ∀ (fuel count : Nat), nearestLoop B c (fun _ => false) count fuel = none
  | 0, _ => rfl
  | fuel + 1, count => by
    unfold nearestLoop
    simp only [ringSearch_false]
    split
    · rfl
    · exact nearestLoop_false B c fuel (count + 1)

lemma ringCoords_one : ringCoords 1 = [⟨-1, 0⟩, ⟨1, 0⟩, ⟨0, 1⟩, ⟨0, -1⟩] := by
  decide

lemma ringSearch_true (B : GameBoard) (c : Coordinates) :
    ringSearch B c (fun _ => true) 1 = some (boardAddGet B c ⟨-1, 0⟩) := by
  unfold ringSearch
  rw [ringCoords_one]
  rfl

lemma get_nearest_field_true (B : GameBoard) (c : Coordinates) :
    get_nearest_field B c (fun _ => true) = some (boardAddGet B c ⟨-1, 0⟩) := by
  unfold get_nearest_field nearestLoop
  rw [ringSearch_true]

lemma add_coordinates_left_ne (W H : Nat) (hW : 2 ≤ W) (c : Coordinates) :
    add_coordinates W H c ⟨-1, 0⟩ ≠ c := by
  intro h
  have hx := congrArg Coordinates.x h
  simp only [add_coordinates] at hx
  split_ifs at hx <;> omega

lemma ring_mem_r0 (r : Nat) : (⟨(r : Int), 0⟩ : Coordinates) ∈ ringCoords r := by
  unfold ringCoords
  rw [List.mem_dedup]
  apply List.mem_append_left
  apply List.mem_append_left
  apply List.mem_map.mpr
  exact ⟨[(r : Int), 0], List.mem_append_right _ (List.mem_singleton.mpr rfl), rfl⟩

lemma ring_mem_0r (r : Nat) : (⟨0, (r : Int)⟩ : Coordinates) ∈ ringCoords r := by
  unfold ringCoords
  rw [List.mem_dedup]
  apply List.mem_append_left
  apply List.mem_append_right
  apply List.mem_map.mpr
  refine ⟨⟨(r : Int), 0⟩, ?_, rfl⟩
  apply List.mem_map.mpr
  exact ⟨[(r : Int), 0], List.mem_append_right _ (List.mem_singleton.mpr rfl), rfl⟩

/-- C9 (amended): on every finite board, `get_nearest_field` with an
always-false predicate terminates and returns no match; every ring enumerates
its offsets without duplicates and contains the two pure-axis points `(r,0)`
and `(0,r)`; and with an always-true predicate the search returns the field
at a radius-1 offset - one of the four Von Neumann neighbors - which, when
both board dimensions are at least 2, is never the origin field itself (on a
1-wide board the radius-1 offsets wrap back onto the origin, as the
counterexample shows). -/
theorem nearest_field_search_behaviour (B : GameBoard) (c : Coordinates) (r : Nat)
    (hr : 1 ≤ r) :
    get_nearest_field B c (fun _ => false) = none
    ∧ (∃ d ∈ ringCoords 1, get_nearest_field B c (fun _ => true) = some (boardAddGet B c d)
        ∧ (2 ≤ B.width → 2 ≤ B.height → add_coordinates B.width B.height c d ≠ c))
    ∧ (ringCoords r).Nodup
    ∧ (⟨(r : Int), 0⟩ : Coordinates) ∈ ringCoords r
    ∧ (⟨0, (r : Int)⟩ : Coordinates) ∈ ringCoords r := by
  refine ⟨nearestLoop_false B c _ 1, ?_, List.nodup_dedup _, ring_mem_r0 r, ring_mem_0r r⟩
  refine ⟨⟨-1, 0⟩, ?_, get_nearest_field_true B c,
    fun hW _ => add_coordinates_left_ne B.width B.height hW c⟩
  rw [ringCoords_one]
  simp

/-- Witness for C9 (amended) on the full 2x2 board at the origin with ring
radius 3. -/
theorem nearest_field_search_behaviour_witness :
    get_nearest_field (fullBoard 2 2) ⟨0, 0⟩ (fun _ => false) = none
    ∧ (∃ d ∈ ringCoords 1, get_nearest_field (fullBoard 2 2) ⟨0, 0⟩ (fun _ => true) =
          some (boardAddGet (fullBoard 2 2) ⟨0, 0⟩ d)
        ∧ (2 ≤ (fullBoard 2 2).width → 2 ≤ (fullBoard 2 2).height →
            add_coordinates (fullBoard 2 2).width (fullBoard 2 2).height ⟨0, 0⟩ d ≠ ⟨0, 0⟩))
    ∧ (ringCoords 3).Nodup
    ∧ (⟨(3 : Int), 0⟩ : Coordinates) ∈ ringCoords 3
    ∧ (⟨0, (3 : Int)⟩ : Coordinates) ∈ ringCoords 3 :=
  nearest_field_search_behaviour (fullBoard 2 2) ⟨0, 0⟩ 3 (by decide)
